import Mathlib

/-!
Verification development for the savings-ledger core of `app.py`
(personal savings-goal tracker).

The embedding below translates the computational core of the source:

* `MonthlyRecord` — one row of the ledger table `plans` (columns
  `month`, the six numeric categories of `COLS_NUMERIC`, `comment`).
  Monetary amounts are embedded as exact integers (`Int`); the spec
  declares them plain real numbers with no internal rounding, and every
  operation the claims touch is `+`, `-`, `max` and comparison.
* Month timestamps normalised by `to_period("M").to_timestamp()` are
  embedded as the month index `year * 12 + month`; the day component is
  discarded exactly as pandas does, and the encoding is strictly
  monotone in (year, month), so date comparisons are preserved.
* `recalc` — the function of the same name (app.py lines 26–37):
  `balance` is a per-row formula, `total_saved` is `cumsum` of
  `savings` in the frame's current row order.
* `loadData` — the column-defaulting and sorting part of `load_data`
  (app.py lines 16–24), over an abstract raw table in which each
  optional column is either present (a list of cells) or absent.
* `appendTransaction` — the submit handler of `add_op_form`
  (app.py lines 78–82 and 101–119): normalise the target date to its
  month, then update the first matching row or append a fresh row.
* `goalAccumulated` / `goalPlannedFuture` / `loanNeeded` — the header
  computations (app.py lines 49–53).
-/

/-- One ledger row as stored in `plans` before derived columns exist:
the `month` key (already normalised to a month index) plus the six
numeric categories of `COLS_NUMERIC` and the free-text `comment`. -/
structure MonthlyRecord where
  month : Int
  income : Int
  expenses : Int
  installments : Int
  autoloan : Int
  savings : Int
  debt_return : Int
  comment : String
deriving DecidableEq, Repr

/-- A ledger row after `recalc` has populated the two derived columns
`balance` and `total_saved`; `base` holds the original columns. -/
structure CalcRecord where
  base : MonthlyRecord
  balance : Int
  total_saved : Int
deriving DecidableEq, Repr

def dummyRecord : MonthlyRecord :=
  { month := 0, income := 0, expenses := 0, installments := 0
    autoloan := 0, savings := 0, debt_return := 0, comment := "" }

def dummyCalc : CalcRecord :=
  { base := dummyRecord, balance := 0, total_saved := 0 }

/-- A raw calendar date as entered in the form's date input. -/
structure RawDate where
  year : Int
  month : Nat
  day : Nat
deriving DecidableEq, Repr

/-- `pd.to_datetime(d).to_period("M").to_timestamp()` (app.py line 80,
also line 18): the date collapses to the first instant of its calendar
month.  Embedded as the month index `year * 12 + month`, which drops
the day and is strictly monotone in (year, month). -/
def monthFloor (d : RawDate) : Int :=
  d.year * 12 + (d.month : Int)

/-- The row-wise balance formula of `recalc` (app.py lines 28–35). -/
def balanceOf (r : MonthlyRecord) : Int :=
  r.income - r.expenses - r.installments - r.autoloan + r.debt_return - r.savings

/-- Worker for `recalc`: `acc` is the running total of `savings` over
the rows already passed, mirroring `df["savings"].cumsum()` which runs
over the frame in its current row order. -/
def recalcAux (acc : Int) : List MonthlyRecord → List CalcRecord
  | [] => []
  | r :: rs =>
    { base := r, balance := balanceOf r, total_saved := acc + r.savings }
      :: recalcAux (acc + r.savings) rs

/-- `recalc` (app.py lines 26–37): copies the frame, sets
`balance` row-wise and `total_saved = savings.cumsum()`. -/
def recalc (df : List MonthlyRecord) : List CalcRecord :=
  recalcAux 0 df

/-- The raw stored table as `load_data` sees it after parsing: the
`month` column is required, each numeric column and the `comment`
column is either present (`some` list of cells, one per row) or absent
(`none`). -/
structure RawTable where
  months : List RawDate
  income : Option (List Int)
  expenses : Option (List Int)
  installments : Option (List Int)
  autoloan : Option (List Int)
  savings : Option (List Int)
  debt_return : Option (List Int)
  comment : Option (List String)

/-- Cell of a numeric column at row `i`: an absent column reads as the
default 0 (app.py lines 19–21). -/
def colVal (col : Option (List Int)) (i : Nat) : Int :=
  match col with
  | none => 0
  | some l => l.getD i 0

/-- Cell of the comment column at row `i`: an absent column reads as
the empty string (app.py lines 22–23). -/
def colStr (col : Option (List String)) (i : Nat) : String :=
  match col with
  | none => ""
  | some l => l.getD i ""

/-- The rows of `load_data` before sorting: one record per row of the
`month` column, every absent column defaulted (app.py lines 17–23). -/
def loadRows (t : RawTable) : List MonthlyRecord :=
  List.range t.months.length |>.map (fun i =>
    { month := monthFloor (t.months.getD i ⟨0, 1, 1⟩)
      income := colVal t.income i
      expenses := colVal t.expenses i
      installments := colVal t.installments i
      autoloan := colVal t.autoloan i
      savings := colVal t.savings i
      debt_return := colVal t.debt_return i
      comment := colStr t.comment i })

/-- `load_data` (app.py lines 16–24): normalise `month` to its month
start, default each absent column, and sort ascending by `month`
(`sort_values` is a stable comparison sort; insertion sort agrees with
it on every input). -/
def loadData (t : RawTable) : List MonthlyRecord :=
  (loadRows t).insertionSort (fun a b => a.month ≤ b.month)

/-- The six operation types of the form's selectbox (app.py lines
84–95), i.e. the columns of `COLS_NUMERIC`. -/
inductive Category where
  | income
  | expenses
  | installments
  | autoloan
  | savings
  | debt_return
deriving DecidableEq, Repr

/-- The human-readable label `op_type[0]` of each category. -/
def catLabel : Category → String
  | .income => "Доход"
  | .expenses => "Расход"
  | .installments => "Рассрочка"
  | .autoloan => "Автокредит"
  | .savings => "Накопление"
  | .debt_return => "Возврат долга"

/-- Read the numeric column `col_key` of a row. -/
def getCat (r : MonthlyRecord) : Category → Int
  | .income => r.income
  | .expenses => r.expenses
  | .installments => r.installments
  | .autoloan => r.autoloan
  | .savings => r.savings
  | .debt_return => r.debt_return

/-- Write the numeric column `col_key` of a row. -/
def setCat (r : MonthlyRecord) : Category → Int → MonthlyRecord
  | .income, v => { r with income := v }
  | .expenses, v => { r with expenses := v }
  | .installments, v => { r with installments := v }
  | .autoloan, v => { r with autoloan := v }
  | .savings, v => { r with savings := v }
  | .debt_return, v => { r with debt_return := v }

/-- The tag `f"+{op_type[0]}: {int(amount)}₽ ({comment_add})"` used for
a new row's comment (app.py line 118), with the parenthetical suffix
omitted when the comment is empty. -/
def opTag (cat : Category) (amount : Int) (comment : String) : String :=
  if comment = "" then "+" ++ catLabel cat ++ ": " ++ toString amount ++ "₽"
  else "+" ++ catLabel cat ++ ": " ++ toString amount ++ "₽ (" ++ comment ++ ")"

/-- The existing-month update (app.py lines 106–111): add `amount` to
the chosen column; when the form comment is non-empty, rebuild the
row's comment as `old ++ glue ++ tag` where `glue` is `" | "` unless
the old comment is empty. -/
def applyOp (r : MonthlyRecord) (cat : Category) (amount : Int)
    (comment : String) : MonthlyRecord :=
  let r2 := setCat r cat (getCat r cat + amount)
  if comment = "" then r2
  else { r2 with comment :=
    r.comment ++ (if r.comment = "" then "" else " | ") ++ opTag cat amount comment }

/-- The fresh row built in the new-month branch (app.py lines 113–118):
every `COLS_NUMERIC` column 0, then the chosen column set to `amount`,
comment set to the tag. -/
def newRow (m : Int) (cat : Category) (amount : Int) (comment : String) :
    MonthlyRecord :=
  setCat
    { month := m, income := 0, expenses := 0, installments := 0
      autoloan := 0, savings := 0, debt_return := 0
      comment := opTag cat amount comment }
    cat amount

/-- `df.loc[idx, ...]` update at the first index matching `p`,
mirroring `df.index[df["month"] == target_month][0]` (app.py line
106). -/
def updFirst (p : MonthlyRecord → Bool) (f : MonthlyRecord → MonthlyRecord) :
    List MonthlyRecord → List MonthlyRecord
  | [] => []
  | x :: xs => if p x then f x :: xs else x :: updFirst p f xs

/-- The submit handler of `add_op_form` (app.py lines 78–82, 101–119):
normalise the target date to its month start, then either add to the
first existing row with that month or append one fresh row. -/
def appendTransaction (df : List MonthlyRecord) (target : RawDate)
    (cat : Category) (amount : Int) (comment : String) : List MonthlyRecord :=
  let m := monthFloor target
  if df.any (fun r => decide (r.month = m)) then
    updFirst (fun r => decide (r.month = m)) (fun r => applyOp r cat amount comment) df
  else
    df ++ [newRow m cat amount comment]

/-- `accumulated` (app.py line 50): sum of `savings` over rows with
`month <= today`, computed over the post-`recalc` frame. -/
def goalAccumulated (plans : List CalcRecord) (today : Int) : Int :=
  (plans.filter (fun r => decide (r.base.month ≤ today))).foldl
    (fun s r => s + r.base.savings) 0

/-- `planned_future` (app.py line 52): sum of `savings` over rows with
`today < month <= GOAL_DEADLINE`. -/
def goalPlannedFuture (plans : List CalcRecord) (today deadline : Int) : Int :=
  (plans.filter (fun r =>
    decide (today < r.base.month) && decide (r.base.month ≤ deadline))).foldl
    (fun s r => s + r.base.savings) 0

/-- `loan_needed` (app.py line 53): the shortfall
`max(0, GOAL_AMOUNT - (accumulated + planned_future))`. -/
def loanNeeded (plans : List CalcRecord) (today deadline goal : Int) : Int :=
  max 0 (goal - (goalAccumulated plans today + goalPlannedFuture plans today deadline))

/-! ## Basic lemmas about `recalc` -/

theorem recalcAux_length (acc : Int) (df : List MonthlyRecord) :
    (recalcAux acc df).length = df.length := by
  induction df generalizing acc with
  | nil => rfl
  | cons r rs ih => simp [recalcAux, ih]

theorem recalcAux_getD (acc : Int) (df : List MonthlyRecord) (i : Nat)
    (h : i < df.length) :
    (recalcAux acc df).getD i dummyCalc =
      { base := df.getD i dummyRecord
        balance := balanceOf (df.getD i dummyRecord)
        total_saved := acc + ((df.take (i + 1)).map (fun r => r.savings)).sum } := by
  induction df generalizing acc i with
  | nil => simp at h
  | cons r rs ih =>
    cases i with
    | zero => simp [recalcAux]
    | succ j =>
      have hj : j < rs.length := by
        simp only [List.length_cons] at h
        omega
      simp only [recalcAux, List.getD_cons_succ, List.take_succ_cons, List.map_cons,
        List.sum_cons]
      rw [ih (acc + r.savings) j hj]
      simp [add_assoc]

theorem recalcAux_map_base (acc : Int) (df : List MonthlyRecord) :
    (recalcAux acc df).map (fun c => c.base) = df := by
  induction df generalizing acc with
  | nil => rfl
  | cons r rs ih => simp [recalcAux, ih]

/-- Projection of a recalculated row to its original columns plus the
derived `balance`. -/
def baseBalance (c : CalcRecord) : MonthlyRecord × Int := (c.base, c.balance)

theorem recalcAux_map_baseBalance (acc : Int) (df : List MonthlyRecord) :
    (recalcAux acc df).map baseBalance = df.map (fun r => (r, balanceOf r)) := by
  induction df generalizing acc with
  | nil => rfl
  | cons r rs ih => simp [recalcAux, baseBalance, ih]

/-! ## C1 -/

/-- C1: for every row of the input, `recalc` sets that row's `balance`
to `income − expenses − installments − autoloan + debt_return −
savings` computed from that row's own fields only. -/
theorem recalc_balance_own_fields (df : List MonthlyRecord) (i : Nat)
    (h : i < df.length) :
    ((recalc df).getD i dummyCalc).balance =
      (df.getD i dummyRecord).income - (df.getD i dummyRecord).expenses
        - (df.getD i dummyRecord).installments - (df.getD i dummyRecord).autoloan
        + (df.getD i dummyRecord).debt_return - (df.getD i dummyRecord).savings := by
  rw [recalc, recalcAux_getD 0 df i h]
  simp [balanceOf]

/-- Witness for C1 at the spec's worked example
`{month: 2025-01, income: 100000, expenses: 30000, savings: 50000}`. -/
def w1a : MonthlyRecord :=
  { month := 24301, income := 100000, expenses := 30000, installments := 0
    autoloan := 0, savings := 50000, debt_return := 0, comment := "" }

theorem recalc_balance_own_fields_witness :
    0 < [w1a].length ∧
    ((recalc [w1a]).getD 0 dummyCalc).balance =
      ([w1a].getD 0 dummyRecord).income - ([w1a].getD 0 dummyRecord).expenses
        - ([w1a].getD 0 dummyRecord).installments - ([w1a].getD 0 dummyRecord).autoloan
        + ([w1a].getD 0 dummyRecord).debt_return - ([w1a].getD 0 dummyRecord).savings :=
  ⟨by decide, recalc_balance_own_fields [w1a] 0 (by decide)⟩

/-! ## C10 -/

/-- C10: `recalc` is a pure function that only populates the derived
columns: projecting each output row back to its input columns (`month`,
the six categories, `comment`) returns the input sequence exactly, in
order — no input field of any row is changed. -/
theorem recalc_preserves_input (df : List MonthlyRecord) :
    (recalc df).map (fun c => c.base) = df :=
  recalcAux_map_base 0 df

/-! ## C4 -/

/-- C4: permuting the input rows before `recalc` permutes the
(row, balance) pairs the same way: each row keeps the same `balance`
value no matter where it sits in the input order. -/
theorem recalc_balance_perm_invariant (l1 l2 : List MonthlyRecord)
    (h : l1.Perm l2) :
    ((recalc l1).map baseBalance).Perm ((recalc l2).map baseBalance) := by
  rw [recalc, recalc, recalcAux_map_baseBalance, recalcAux_map_baseBalance]
  exact h.map _

def w4a : MonthlyRecord :=
  { month := 24301, income := 10, expenses := 2, installments := 0
    autoloan := 0, savings := 3, debt_return := 0, comment := "a" }

def w4b : MonthlyRecord :=
  { month := 24302, income := 20, expenses := 5, installments := 1
    autoloan := 0, savings := 4, debt_return := 0, comment := "b" }

theorem recalc_balance_perm_invariant_witness :
    ([w4a, w4b]).Perm [w4b, w4a] ∧
    ((recalc [w4a, w4b]).map baseBalance).Perm ((recalc [w4b, w4a]).map baseBalance) :=
  ⟨List.Perm.swap w4b w4a [],
    recalc_balance_perm_invariant [w4a, w4b] [w4b, w4a] (List.Perm.swap w4b w4a [])⟩

/-! ## C3 -/

/-- C3: on a non-empty input, the last recalculated row's
`total_saved` is the sum of `savings` over all rows. -/
theorem recalc_last_total_saved (df : List MonthlyRecord)
    (h2 : recalc df ≠ []) :
    ((recalc df).getLast h2).total_saved = (df.map (fun r => r.savings)).sum := by
  have hlen : (recalc df).length = df.length := recalcAux_length 0 df
  have hpos : 0 < df.length := by
    rcases Nat.eq_zero_or_pos df.length with h0 | h0
    · exact absurd (by simp [recalc, List.length_eq_zero.1 h0, recalcAux]) h2
    · exact h0
  have hi : df.length - 1 < df.length := by omega
  have hi2 : (recalc df).length - 1 < (recalc df).length := by omega
  rw [List.getLast_eq_getElem,
    ← List.getD_eq_getElem (recalc df) dummyCalc hi2, hlen, recalc,
    recalcAux_getD 0 df (df.length - 1) hi]
  have : df.length - 1 + 1 = df.length := by omega
  simp [this]

def w3a : MonthlyRecord :=
  { month := 24301, income := 0, expenses := 0, installments := 0
    autoloan := 0, savings := 7, debt_return := 0, comment := "" }

def w3b : MonthlyRecord :=
  { month := 24302, income := 0, expenses := 0, installments := 0
    autoloan := 0, savings := 5, debt_return := 0, comment := "" }

theorem recalc_last_total_saved_witness :
    ((recalc [w3a, w3b]).getLast (by decide)).total_saved
      = ([w3a, w3b].map (fun r => r.savings)).sum :=
  recalc_last_total_saved [w3a, w3b] (by decide)

/-! ## C2 -/

def c2a : MonthlyRecord :=
  { month := 24302, income := 0, expenses := 0, installments := 0
    autoloan := 0, savings := 10, debt_return := 0, comment := "" }

def c2b : MonthlyRecord :=
  { month := 24301, income := 0, expenses := 0, installments := 0
    autoloan := 0, savings := 20, debt_return := 0, comment := "" }

/-- C2 counterexample: `recalc` takes the cumulative sum in the
frame's current row order and never sorts.  On the two-row input
`[c2a, c2b]` whose months are out of order, the row holding the
smallest month (`c2b`, `savings = 20`) ends with `total_saved = 30`,
not the claimed sum `20` of the savings of the 1 smallest month. -/
theorem recalc_total_saved_unsorted_counterexample :
    c2b.month < c2a.month ∧
    ((recalc [c2a, c2b]).getD 1 dummyCalc).base = c2b ∧
    c2b.savings = 20 ∧
    ((recalc [c2a, c2b]).getD 1 dummyCalc).total_saved = 30 := by
  decide

theorem filter_le_month_getD_eq_take (df : List MonthlyRecord)
    (hs : List.Sorted (fun a b => a.month < b.month) df) (i : Nat)
    (h : i < df.length) :
    df.filter (fun r => decide (r.month ≤ (df.getD i dummyRecord).month))
      = df.take (i + 1) := by
  induction df generalizing i with
  | nil => simp at h
  | cons x xs ih =>
    rcases List.sorted_cons.1 hs with ⟨hhead, htail⟩
    cases i with
    | zero =>
      have hnil : List.filter (fun r => decide (r.month ≤ x.month)) xs = [] :=
        List.filter_eq_nil_iff.2 (fun a ha => by
          simp only [decide_eq_true_eq]
          exact not_le.2 (hhead a ha))
      simp [List.filter_cons, hnil]
    | succ j =>
      have hj : j < xs.length := by
        simp only [List.length_cons] at h
        omega
      have hxm : x.month < (xs.getD j dummyRecord).month := by
        have hmem : xs.getD j dummyRecord ∈ xs := by
          rw [List.getD_eq_getElem xs dummyRecord hj]
          exact List.getElem_mem hj
        exact hhead _ hmem
      simp only [List.getD_cons_succ, List.take_succ_cons, List.filter_cons,
        decide_eq_true_eq, if_pos (le_of_lt hxm)]
      rw [ih htail j hj]

/-- C2 (amended): `recalc` computes `total_saved` as a prefix sum in
the frame's current row order; on inputs sorted strictly ascending by
`month` — which every caller establishes (`load_data` sorts, and the
form handler sorts before `recalc`) — the row holding the k-th
smallest month gets `total_saved` equal to the sum of `savings` over
the rows whose months are the k smallest, i.e. those with
`month ≤` its own. -/
theorem recalc_total_saved_sorted (df : List MonthlyRecord)
    (hs : List.Sorted (fun a b => a.month < b.month) df) (i : Nat)
    (h : i < df.length) :
    ((recalc df).getD i dummyCalc).total_saved =
      ((df.filter (fun r =>
        decide (r.month ≤ (df.getD i dummyRecord).month))).map
        (fun r => r.savings)).sum := by
  rw [filter_le_month_getD_eq_take df hs i h, recalc, recalcAux_getD 0 df i h]
  simp

theorem recalc_total_saved_sorted_witness :
    List.Sorted (fun a b : MonthlyRecord => a.month < b.month) [c2b, c2a] ∧
    ((recalc [c2b, c2a]).getD 1 dummyCalc).total_saved =
      (([c2b, c2a].filter (fun r =>
        decide (r.month ≤ ([c2b, c2a].getD 1 dummyRecord).month))).map
        (fun r => r.savings)).sum :=
  ⟨by constructor <;> simp [c2a, c2b],
    recalc_total_saved_sorted [c2b, c2a]
      (by constructor <;> simp [c2a, c2b]) 1 (by decide)⟩

/-! ## C8 -/

theorem foldl_savings_eq_sum (a : Int) (l : List CalcRecord) :
    l.foldl (fun s r => s + r.base.savings) a
      = a + (l.map (fun r => r.base.savings)).sum := by
  induction l generalizing a with
  | nil => simp
  | cons x xs ih => simp [List.foldl_cons, ih (a + x.base.savings), add_assoc]

/-- C8: the header summary computes `accumulated` as the sum of
`savings` over rows with `month ≤ today`, `planned_future` as the sum
over rows with `today < month ≤ deadline`, and `loan_needed` as
`max(0, goal − (accumulated + planned_future))`; the shortfall is
therefore never negative. -/
theorem goal_summary_spec (plans : List CalcRecord) (goal deadline today : Int) :
    goalAccumulated plans today =
      ((plans.filter (fun r => decide (r.base.month ≤ today))).map
        (fun r => r.base.savings)).sum ∧
    goalPlannedFuture plans today deadline =
      ((plans.filter (fun r =>
        decide (today < r.base.month) && decide (r.base.month ≤ deadline))).map
        (fun r => r.base.savings)).sum ∧
    loanNeeded plans today deadline goal =
      max 0 (goal - (goalAccumulated plans today
        + goalPlannedFuture plans today deadline)) ∧
    0 ≤ loanNeeded plans today deadline goal := by
  refine ⟨?_, ?_, rfl, le_max_left 0 _⟩
  · rw [goalAccumulated, foldl_savings_eq_sum]
    simp
  · rw [goalPlannedFuture, foldl_savings_eq_sum]
    simp

/-! ## C9 -/

theorem loadData_perm (t : RawTable) : (loadData t).Perm (loadRows t) :=
  List.perm_insertionSort _ _

/-- C9: on load, each of the six numeric columns that is absent from
the stored table reads as 0 in every loaded row, an absent comment
column reads as the empty string in every loaded row, and the load
always produces exactly one record per stored row — a missing column
never makes it fail. -/
theorem loadData_defaults (t : RawTable) :
    (loadData t).length = t.months.length ∧
    (t.income = none → ∀ r ∈ loadData t, r.income = 0) ∧
    (t.expenses = none → ∀ r ∈ loadData t, r.expenses = 0) ∧
    (t.installments = none → ∀ r ∈ loadData t, r.installments = 0) ∧
    (t.autoloan = none → ∀ r ∈ loadData t, r.autoloan = 0) ∧
    (t.savings = none → ∀ r ∈ loadData t, r.savings = 0) ∧
    (t.debt_return = none → ∀ r ∈ loadData t, r.debt_return = 0) ∧
    (t.comment = none → ∀ r ∈ loadData t, r.comment = "") := by
  have hperm := loadData_perm t
  constructor
  · rw [hperm.length_eq, loadRows]
    simp
  refine ⟨?_, ?_, ?_, ?_, ?_, ?_, ?_⟩ <;>
    · intro h0 r hr
      rw [hperm.mem_iff, loadRows, List.mem_map] at hr
      obtain ⟨i, hi, rfl⟩ := hr
      simp [h0, colVal, colStr]

def t9 : RawTable :=
  { months := [⟨2025, 1, 15⟩], income := none, expenses := none
    installments := none, autoloan := none, savings := none
    debt_return := none, comment := none }

theorem loadData_defaults_witness :
    t9.income = none ∧ t9.comment = none ∧
    (loadData t9).length = t9.months.length ∧
    ((loadData t9).getD 0 dummyRecord).income = 0 ∧
    ((loadData t9).getD 0 dummyRecord).comment = "" :=
  ⟨rfl, rfl, (loadData_defaults t9).1,
    (loadData_defaults t9).2.1 rfl _ (by decide),
    (loadData_defaults t9).2.2.2.2.2.2.2 rfl _ (by decide)⟩

/-! ## Lemmas about the append operation -/

theorem setCat_month (r : MonthlyRecord) (c : Category) (v : Int) :
    (setCat r c v).month = r.month := by
  cases c <;> rfl

theorem setCat_comment (r : MonthlyRecord) (c : Category) (v : Int) :
    (setCat r c v).comment = r.comment := by
  cases c <;> rfl

theorem getCat_setCat_self (r : MonthlyRecord) (c : Category) (v : Int) :
    getCat (setCat r c v) c = v := by
  cases c <;> rfl

theorem getCat_setCat_ne (r : MonthlyRecord) (c c2 : Category) (v : Int)
    (h : c2 ≠ c) : getCat (setCat r c v) c2 = getCat r c2 := by
  cases c <;> cases c2 <;> first | rfl | exact absurd rfl h

theorem getCat_set_comment (r : MonthlyRecord) (s : String) (c : Category) :
    getCat { r with comment := s } c = getCat r c := by
  cases c <;> rfl

theorem applyOp_month (r : MonthlyRecord) (c : Category) (a : Int) (cm : String) :
    (applyOp r c a cm).month = r.month := by
  simp only [applyOp]
  split
  · exact setCat_month r c _
  · exact setCat_month r c _

theorem getCat_applyOp_self (r : MonthlyRecord) (c : Category) (a : Int)
    (cm : String) : getCat (applyOp r c a cm) c = getCat r c + a := by
  simp only [applyOp]
  split
  · exact getCat_setCat_self r c _
  · rw [getCat_set_comment, getCat_setCat_self]

theorem getCat_applyOp_ne (r : MonthlyRecord) (c c2 : Category) (a : Int)
    (cm : String) (h : c2 ≠ c) :
    getCat (applyOp r c a cm) c2 = getCat r c2 := by
  simp only [applyOp]
  split
  · exact getCat_setCat_ne r c c2 _ h
  · rw [getCat_set_comment, getCat_setCat_ne r c c2 _ h]

theorem updFirst_length (p : MonthlyRecord → Bool)
    (f : MonthlyRecord → MonthlyRecord) (l : List MonthlyRecord) :
    (updFirst p f l).length = l.length := by
  induction l with
  | nil => rfl
  | cons x xs ih =>
    rw [updFirst]
    split
    · simp
    · simp [ih]

theorem updFirst_getD (p : MonthlyRecord → Bool)
    (f : MonthlyRecord → MonthlyRecord) (l : List MonthlyRecord)
    (hcount : l.countP p ≤ 1) (i : Nat) (h : i < l.length) :
    (updFirst p f l).getD i dummyRecord =
      (if p (l.getD i dummyRecord) then f (l.getD i dummyRecord)
       else l.getD i dummyRecord) := by
  induction l generalizing i with
  | nil => simp at h
  | cons x xs ih =>
    rw [updFirst]
    by_cases hx : p x = true
    · rw [if_pos hx]
      cases i with
      | zero => simp [hx]
      | succ j =>
        have hj : j < xs.length := by
          simp only [List.length_cons] at h
          omega
        have hzero : xs.countP p = 0 := by
          rw [List.countP_cons_of_pos p xs hx] at hcount
          omega
        have hnp : ¬ p (xs.getD j dummyRecord) = true := by
          have hmem : xs.getD j dummyRecord ∈ xs := by
            rw [List.getD_eq_getElem xs dummyRecord hj]
            exact List.getElem_mem hj
          exact List.countP_eq_zero.1 hzero _ hmem
        simp only [List.getD_cons_succ]
        rw [if_neg hnp]
    · rw [if_neg hx]
      cases i with
      | zero => simp [hx]
      | succ j =>
        have hj : j < xs.length := by
          simp only [List.length_cons] at h
          omega
        have hcount2 : xs.countP p ≤ 1 := by
          rw [List.countP_cons_of_neg p xs hx] at hcount
          exact hcount
        simp only [List.getD_cons_succ]
        exact ih hcount2 j hj

theorem countP_month_le_one (l : List MonthlyRecord) (m : Int)
    (h : (l.map (fun r => r.month)).Nodup) :
    l.countP (fun r => decide (r.month = m)) ≤ 1 := by
  induction l with
  | nil => simp
  | cons x xs ih =>
    rw [List.map_cons, List.nodup_cons] at h
    obtain ⟨hx, hxs⟩ := h
    by_cases hm : x.month = m
    · rw [List.countP_cons_of_pos _ xs (by simp [hm])]
      have h0 : xs.countP (fun r => decide (r.month = m)) = 0 :=
        List.countP_eq_zero.2 (fun a ha => by
          simp only [decide_eq_true_eq]
          intro hea
          apply hx
          rw [hm, ← hea]
          exact List.mem_map_of_mem _ ha)
      omega
    · rw [List.countP_cons_of_neg _ xs (by simp [hm])]
      exact ih hxs

/-! ## C5 -/

/-- C5: when a row with the (normalised) target month exists and the
ledger keeps one row per month, the append operation keeps the number
of rows, increases exactly the target row's chosen category column by
exactly the amount while leaving its month and its other five category
columns unchanged, and leaves every other month's row entirely
unchanged. -/
theorem append_existing_month_frame (df : List MonthlyRecord) (target : RawDate)
    (cat : Category) (amount : Int) (cm : String)
    (hnodup : (df.map (fun r => r.month)).Nodup) (ha : 0 ≤ amount)
    (hmem : ∃ r ∈ df, r.month = monthFloor target) :
    (appendTransaction df target cat amount cm).length = df.length ∧
    (∀ i, i < df.length → (df.getD i dummyRecord).month = monthFloor target →
      ((appendTransaction df target cat amount cm).getD i dummyRecord).month
          = (df.getD i dummyRecord).month ∧
      getCat ((appendTransaction df target cat amount cm).getD i dummyRecord) cat
          = getCat (df.getD i dummyRecord) cat + amount ∧
      ∀ c2, c2 ≠ cat →
        getCat ((appendTransaction df target cat amount cm).getD i dummyRecord) c2
          = getCat (df.getD i dummyRecord) c2) ∧
    (∀ i, i < df.length → (df.getD i dummyRecord).month ≠ monthFloor target →
      (appendTransaction df target cat amount cm).getD i dummyRecord
        = df.getD i dummyRecord) := by
  have hany : df.any (fun r => decide (r.month = monthFloor target)) = true := by
    rcases hmem with ⟨r, hr, hrm⟩
    rw [List.any_eq_true]
    exact ⟨r, hr, by simp [hrm]⟩
  have hupd : appendTransaction df target cat amount cm =
      updFirst (fun r => decide (r.month = monthFloor target))
        (fun r => applyOp r cat amount cm) df := by
    simp only [appendTransaction]
    rw [if_pos hany]
  have hcount := countP_month_le_one df (monthFloor target) hnodup
  refine ⟨by rw [hupd]; exact updFirst_length _ _ df, ?_, ?_⟩
  · intro i hi him
    rw [hupd, updFirst_getD _ _ df hcount i hi,
      if_pos (by simp only [decide_eq_true_eq]; exact him)]
    exact ⟨applyOp_month _ _ _ _, getCat_applyOp_self _ _ _ _,
      fun c2 hc2 => getCat_applyOp_ne _ _ _ _ _ hc2⟩
  · intro i hi him
    rw [hupd, updFirst_getD _ _ df hcount i hi,
      if_neg (by simp only [decide_eq_true_eq]; exact him)]

def w5a : MonthlyRecord :=
  { month := 24301, income := 100000, expenses := 30000, installments := 0
    autoloan := 0, savings := 50000, debt_return := 0, comment := "" }

def w5b : MonthlyRecord :=
  { month := 24302, income := 80000, expenses := 20000, installments := 5000
    autoloan := 0, savings := 30000, debt_return := 0, comment := "x" }

def d5 : RawDate := ⟨2025, 1, 9⟩

theorem append_existing_month_frame_witness :
    (appendTransaction [w5a, w5b] d5 Category.savings 10000 "").length = 2 ∧
    getCat ((appendTransaction [w5a, w5b] d5 Category.savings 10000 "").getD 0
        dummyRecord) Category.savings
      = getCat ([w5a, w5b].getD 0 dummyRecord) Category.savings + 10000 ∧
    (appendTransaction [w5a, w5b] d5 Category.savings 10000 "").getD 1 dummyRecord
      = [w5a, w5b].getD 1 dummyRecord := by
  have h := append_existing_month_frame [w5a, w5b] d5 Category.savings 10000 ""
    (by decide) (by decide) ⟨w5a, by decide, by decide⟩
  exact ⟨h.1, (h.2.1 0 (by decide) (by decide)).2.1, h.2.2 1 (by decide) (by decide)⟩

/-! ## C6 -/

/-- C6: when no row carries the (normalised) target month, the append
operation appends exactly one fresh row after the unchanged existing
rows; the fresh row carries the target month, `amount` in the chosen
category column, 0 in the other five, and the comment
`"+<label>: <amount>₽"` with the `" (<comment>)"` suffix present
exactly when the supplied comment is non-empty. -/
theorem append_new_month_insert (df : List MonthlyRecord) (target : RawDate)
    (cat : Category) (amount : Int) (cm : String) (ha : 0 ≤ amount)
    (habs : ∀ r ∈ df, r.month ≠ monthFloor target) :
    ∃ nr, appendTransaction df target cat amount cm = df ++ [nr] ∧
      nr.month = monthFloor target ∧
      getCat nr cat = amount ∧
      (∀ c2, c2 ≠ cat → getCat nr c2 = 0) ∧
      (cm = "" → nr.comment = "+" ++ catLabel cat ++ ": " ++ toString amount ++ "₽") ∧
      (cm ≠ "" → nr.comment =
        "+" ++ catLabel cat ++ ": " ++ toString amount ++ "₽ (" ++ cm ++ ")") := by
  have hany : df.any (fun r => decide (r.month = monthFloor target)) = false := by
    rw [List.any_eq_false]
    intro r hr
    simp [habs r hr]
  refine ⟨newRow (monthFloor target) cat amount cm, ?_, ?_, ?_, ?_, ?_, ?_⟩
  · simp only [appendTransaction]
    rw [if_neg (by simp [hany])]
  · rw [newRow, setCat_month]
  · rw [newRow, getCat_setCat_self]
  · intro c2 hc2
    rw [newRow, getCat_setCat_ne _ cat c2 amount hc2]
    cases c2 <;> rfl
  · intro hcm
    rw [newRow, setCat_comment]
    show opTag cat amount cm = _
    rw [opTag, if_pos hcm]
  · intro hcm
    rw [newRow, setCat_comment]
    show opTag cat amount cm = _
    rw [opTag, if_neg hcm]

def d6 : RawDate := ⟨2025, 2, 14⟩

theorem append_new_month_insert_witness :
    ∃ nr, appendTransaction [w5a] d6 Category.expenses 500 "обед" = [w5a] ++ [nr] ∧
      nr.month = monthFloor d6 ∧
      getCat nr Category.expenses = 500 ∧
      (∀ c2, c2 ≠ Category.expenses → getCat nr c2 = 0) ∧
      ("обед" = "" → nr.comment =
        "+" ++ catLabel Category.expenses ++ ": " ++ toString (500 : Int) ++ "₽") ∧
      ("обед" ≠ "" → nr.comment =
        "+" ++ catLabel Category.expenses ++ ": " ++ toString (500 : Int)
          ++ "₽ (" ++ "обед" ++ ")") :=
  append_new_month_insert [w5a] d6 Category.expenses 500 "обед"
    (by decide) (by decide)

/-! ## C7 -/

theorem any_month_updFirst (m : Int) (f : MonthlyRecord → MonthlyRecord)
    (hf : ∀ r, (f r).month = r.month) (l : List MonthlyRecord)
    (h : l.any (fun r => decide (r.month = m)) = true) :
    (updFirst (fun r => decide (r.month = m)) f l).any
      (fun r => decide (r.month = m)) = true := by
  induction l with
  | nil => simp at h
  | cons x xs ih =>
    rw [updFirst]
    by_cases hx : decide (x.month = m) = true
    · rw [if_pos hx]
      simp only [List.any_cons, Bool.or_eq_true]
      left
      rw [hf x]
      exact hx
    · rw [if_neg hx]
      simp only [List.any_cons, Bool.or_eq_true] at h ⊢
      rcases h with h | h
      · exact absurd h hx
      · exact Or.inr (ih h)

theorem appendTransaction_month_present (df : List MonthlyRecord) (d : RawDate)
    (c : Category) (a : Int) (cm : String) :
    (appendTransaction df d c a cm).any
      (fun r => decide (r.month = monthFloor d)) = true := by
  simp only [appendTransaction]
  by_cases hany : df.any (fun r => decide (r.month = monthFloor d)) = true
  · rw [if_pos hany]
    exact any_month_updFirst (monthFloor d) _ (fun r => applyOp_month r c a cm) df hany
  · rw [if_neg hany]
    simp [List.any_append, newRow, setCat_month]

/-- C7: two target dates in the same calendar month (regardless of
their differing days) normalise to the same month key, so the second
of two append calls always lands in the update branch of the row the
first call touched or created — the ledger does not grow a second row
for the same month. -/
theorem append_same_month_collides (d1 d2 : RawDate) (h1 : d1.year = d2.year)
    (h2 : d1.month = d2.month) (h3 : d1.day ≠ d2.day) :
    monthFloor d1 = monthFloor d2 ∧
    ∀ (df : List MonthlyRecord) (c1 c2 : Category) (a1 a2 : Int) (s1 s2 : String),
      (appendTransaction (appendTransaction df d1 c1 a1 s1) d2 c2 a2 s2).length
        = (appendTransaction df d1 c1 a1 s1).length := by
  have hm : monthFloor d1 = monthFloor d2 := by
    rw [monthFloor, monthFloor, h1, h2]
  refine ⟨hm, ?_⟩
  intro df c1 c2 a1 a2 s1 s2
  have hany := appendTransaction_month_present df d1 c1 a1 s1
  rw [hm] at hany
  set out1 := appendTransaction df d1 c1 a1 s1 with hout
  simp only [appendTransaction]
  rw [if_pos hany]
  exact updFirst_length _ _ _

def d7a : RawDate := ⟨2025, 3, 5⟩

def d7b : RawDate := ⟨2025, 3, 28⟩

theorem append_same_month_collides_witness :
    monthFloor d7a = monthFloor d7b ∧
    (appendTransaction (appendTransaction [] d7a Category.savings 10 "") d7b
        Category.income 5 "x").length
      = (appendTransaction [] d7a Category.savings 10 "").length :=
  ⟨(append_same_month_collides d7a d7b rfl rfl (by decide)).1,
    (append_same_month_collides d7a d7b rfl rfl (by decide)).2 []
      Category.savings Category.income 10 5 "" "x"⟩
